import Mathlib

/-
  Verification of the configuration-resolution pipeline of
  `src/api/core/configs/_api.py` (class `ApiConfig`).

  Strings are embedded as `List Char`.  The Python string operations the
  source uses (`str.strip`, `str.lower`, `str.replace` with one-character
  arguments, `str.startswith`, `str.endswith`, the substring test `in`,
  `str.split("=")[1]`, `int(...)`, and single-keyword `str.format`) are
  modelled explicitly below; fallible operations return `Option`, with
  `none` standing for a raised Python exception (KeyError / ValueError /
  IndexError), which aborts the whole resolution.

  pydantic-v2 semantics assumed by the embedding (the source uses
  `field_validator`, which defaults to mode="after", and a
  `model_validator(mode="before")`):
    * the "before" model validator `_check_args` runs first, on the raw
      values mapping;
    * each field is then validated in declaration order: the declared
      constraints (whitespace stripping, length / numeric bounds) run
      BEFORE the field's custom "after" validator;
    * `info.data` holds the previously validated fields.
-/

/-- Python `str.isspace` characters relevant to `str.strip()`. -/
def pySpace (c : Char) : Bool :=
  c = ' ' || c = '\t' || c = '\n' || c = '\r' || c = '\x0b' || c = '\x0c'

/-- Python `str.strip()`: drop whitespace from both ends. -/
def pyStrip (s : List Char) : List Char :=
  ((s.dropWhile pySpace).reverse.dropWhile pySpace).reverse

/-- Python `str.lower()` (ASCII-level). -/
def pyLower (s : List Char) : List Char :=
  s.map Char.toLower

/-- Python `str.replace(a, b)` for one-character `a`, `b`. -/
def pyReplace (a b : Char) (s : List Char) : List Char :=
  s.map (fun c => if c = a then b else c)

/-- Python `str.startswith(p)`. -/
def pyStartswith : List Char → List Char → Bool
  | [], _ => true
  | _ :: _, [] => false
  | a :: as_, b :: bs => a = b && pyStartswith as_ bs

/-- Python `str.endswith(p)`. -/
def pyEndswith (p s : List Char) : Bool :=
  pyStartswith p.reverse s.reverse

/-- Python substring test `p in s`. -/
def pyIn (p : List Char) : List Char → Bool
  | [] => p.isEmpty
  | c :: rest => pyStartswith p (c :: rest) || pyIn p rest

/-- Python `s.split("=")[1]`: the segment between the first and the second
`=`.  Only used by the source on strings that contain an `=`. -/
def pySplitEq1 (s : List Char) : List Char :=
  (((s.dropWhile (fun c => c ≠ '=')).drop 1).takeWhile (fun c => c ≠ '='))

/-- Decimal digit accumulation for `int(...)`; `none` when a non-digit
appears. -/
def digitsToNat : Nat → List Char → Option Nat
  | acc, [] => some acc
  | acc, c :: rest =>
    if c.isDigit then digitsToNat (acc * 10 + (c.toNat - '0'.toNat)) rest
    else none

/-- Python `int(s)` on a decimal string: strips whitespace, allows one
leading sign, then digits only.  `none` models a raised `ValueError`. -/
def pyInt (s : List Char) : Option Int :=
  match pyStrip s with
  | [] => none
  | '+' :: ds => if ds.isEmpty then none else (digitsToNat 0 ds).map Int.ofNat
  | '-' :: ds => if ds.isEmpty then none else (digitsToNat 0 ds).map (fun n => -(n : Int))
  | ds => (digitsToNat 0 ds).map Int.ofNat

/-- Core of single-keyword Python `str.format(key=val)`.
`mode = none`: scanning literal text (`{{` and `}}` are escapes, a lone
`}` is an error, `{` opens a replacement field).  `mode = some acc`:
inside a replacement field, `acc` holds the reversed field name read so
far; on `}` the name must equal `key` (a different name raises KeyError —
only one keyword argument is ever passed in the source), and `val` is
emitted.  `none` models a raised exception. -/
def fmtCore (key val : List Char) : Option (List Char) → List Char → Option (List Char)
  | none, [] => some []
  | some _, [] => none
  | none, c :: rest =>
    if c = '{' then
      match rest with
      | [] => none
      | c2 :: rest2 =>
        if c2 = '{' then Option.map (fun r => '{' :: r) (fmtCore key val none rest2)
        else fmtCore key val (some []) (c2 :: rest2)
    else if c = '}' then
      match rest with
      | [] => none
      | c2 :: rest2 =>
        if c2 = '}' then Option.map (fun r => '}' :: r) (fmtCore key val none rest2)
        else none
    else Option.map (fun r => c :: r) (fmtCore key val none rest)
  | some acc, c :: rest =>
    if c = '}' then
      if acc.reverse = key then Option.map (fun r => val ++ r) (fmtCore key val none rest)
      else none
    else fmtCore key val (some (c :: acc)) rest

/-- Python `s.format(key=val)` with a single keyword argument. -/
def pyFormat (key val s : List Char) : Option (List Char) :=
  fmtCore key val none s

/-- `true` when the string contains neither `{` nor `}`. -/
def braceFree (s : List Char) : Bool :=
  s.all (fun c => !(c = '{' || c = '}'))

/-! ## Data model

`ApiConfig` mirrors the pydantic model of the same name in
`src/api/core/configs/_api.py`, restricted to the fields the validators
of that file read or write.  The same structure serves as the typed view
of the raw values mapping (the `values` dict seen by the "before"
validator) and as the validated result.  The nested `DocsConfig` /
`PathsConfig` field names are exactly those the source dereferences; the
security sub-config is only ever read at `security.ssl.enabled`, kept
here as the single field `security_ssl_enabled`. -/

/-- Modelled from the spec: `HTTPSchemeEnum` lives in
`api.core.constants` (not under `src/`); the spec gives
"`scheme` (enum: http|https)". -/
inductive HTTPSchemeEnum where
  | http
  | https
deriving DecidableEq, Repr

/-- Modelled from the spec: the docs sub-config (`_docs.py` is not under
`src/`); field names are the ones `_check_docs` dereferences. -/
structure DocsConfig where
  enabled : Bool
  openapi_url : List Char
  docs_url : List Char
  redoc_url : List Char
  swagger_ui_oauth2_redirect_url : List Char
deriving DecidableEq, Repr

/-- Modelled from the spec: the paths sub-config (`_paths.py` is not
under `src/`); field names are the ones `_check_paths` dereferences. -/
structure PathsConfig where
  tmp_dir : List Char
  uploads_dir : List Char
  data_dir : List Char
deriving DecidableEq, Repr

/-- The `ApiConfig` record.  `prefix_` renders the source field `prefix`
(a Lean keyword). -/
structure ApiConfig where
  name : List Char
  slug : List Char
  http_scheme : HTTPSchemeEnum
  bind_host : List Char
  port : Int
  version : List Char
  prefix_ : List Char
  gzip_min_size : Int
  behind_proxy : Bool
  behind_cf_proxy : Bool
  security_ssl_enabled : Bool
  docs : DocsConfig
  paths : PathsConfig
deriving DecidableEq, Repr

/-! ## Per-field validation -/

/-- A `constr(strip_whitespace=True)` string field with
`min_length`/`max_length` bounds: strip, then check the length.  `none`
models a pydantic `ValidationError` on the field. -/
def validateStr (lo hi : Nat) (s : List Char) : Option (List Char) :=
  let t := pyStrip s
  if lo ≤ t.length ∧ t.length ≤ hi then some t else none

/-- The `port` field constraint: `Field(..., ge=80, lt=65536)`. -/
def validatePort (p : Int) : Option Int :=
  if 80 ≤ p ∧ p < 65536 then some p else none

/-- The `gzip_min_size` field constraint: `Field(..., ge=0, le=10_485_760)`. -/
def validateGzipMinSize (g : Int) : Option Int :=
  if 0 ≤ g ∧ g ≤ 10485760 then some g else none

/-- `ApiConfig._check_slug`: if the (already constraint-checked) value is
empty and `name` is in `info.data`, derive the slug from the name by
lowercasing, stripping, and replacing spaces, underscores and dots with
hyphens. -/
def checkSlug (val : List Char) (nameData : Option (List Char)) : List Char :=
  match nameData with
  | some n =>
    if val.isEmpty then
      pyReplace '.' '-' (pyReplace '_' '-' (pyReplace ' ' '-' (pyStrip (pyLower n))))
    else val
  | none => val

/-- The full validation of the `slug` field: the declared constraints
(strip, length in [2, 128]) run first, then the "after" validator
`_check_slug`. -/
def validateSlug (raw : List Char) (nameData : Option (List Char)) : Option (List Char) :=
  (validateStr 2 128 raw).map (fun s => checkSlug s nameData)

/-- `ApiConfig._check_prefix`: when the value is non-empty, contains
`\x7bapi_version\x7d` and `version` is in `info.data`, substitute the
version via `str.format`. -/
def checkPrefix (val : List Char) (versionData : Option (List Char)) : Option (List Char) :=
  if val.isEmpty then some val
  else if pyIn ("{api_version}".data) val then
    match versionData with
    | some ver => pyFormat ("api_version".data) ver val
    | none => some val
  else some val

/-- `ApiConfig._check_docs`: when docs are enabled and `prefix` is in
`info.data`, each non-empty URL containing `\x7bapi_prefix\x7d` is
formatted with the resolved prefix. -/
def checkDocs (val : DocsConfig) (prefixData : Option (List Char)) : Option DocsConfig :=
  match prefixData with
  | none => some val
  | some pre =>
    if val.enabled then do
      let o ← if !val.openapi_url.isEmpty && pyIn ("{api_prefix}".data) val.openapi_url then
          pyFormat ("api_prefix".data) pre val.openapi_url
        else some val.openapi_url
      let d ← if !val.docs_url.isEmpty && pyIn ("{api_prefix}".data) val.docs_url then
          pyFormat ("api_prefix".data) pre val.docs_url
        else some val.docs_url
      let r ← if !val.redoc_url.isEmpty && pyIn ("{api_prefix}".data) val.redoc_url then
          pyFormat ("api_prefix".data) pre val.redoc_url
        else some val.redoc_url
      let w ← if !val.swagger_ui_oauth2_redirect_url.isEmpty
            && pyIn ("{api_prefix}".data) val.swagger_ui_oauth2_redirect_url then
          pyFormat ("api_prefix".data) pre val.swagger_ui_oauth2_redirect_url
        else some val.swagger_ui_oauth2_redirect_url
      some { val with openapi_url := o, docs_url := d, redoc_url := r,
                      swagger_ui_oauth2_redirect_url := w }
    else some val

/-- `ApiConfig._check_paths`: when `slug` is in `info.data`, expand
`\x7bapi_slug\x7d` in `tmp_dir`; in `uploads_dir` expand
`\x7bapi_slug\x7d` if present, else `\x7btmp_dir\x7d` using the
already-resolved `tmp_dir`; then expand `\x7bapi_slug\x7d` in
`data_dir`. -/
def checkPaths (val : PathsConfig) (slugData : Option (List Char)) : Option PathsConfig :=
  match slugData with
  | none => some val
  | some slug => do
    let tmp ← if pyIn ("{api_slug}".data) val.tmp_dir then
        pyFormat ("api_slug".data) slug val.tmp_dir
      else some val.tmp_dir
    let up ← if pyIn ("{api_slug}".data) val.uploads_dir then
        pyFormat ("api_slug".data) slug val.uploads_dir
      else if pyIn ("{tmp_dir}".data) val.uploads_dir then
        pyFormat ("tmp_dir".data) tmp val.uploads_dir
      else some val.uploads_dir
    let dat ← if pyIn ("{api_slug}".data) val.data_dir then
        pyFormat ("api_slug".data) slug val.data_dir
      else some val.data_dir
    some { tmp_dir := tmp, uploads_dir := up, data_dir := dat }

/-! ## Launch-argument override (`ApiConfig._check_args`)

The model validator runs in mode "before", on the raw values mapping.
`sys.argv` is modelled as `prog :: args` (`prog = sys.argv[0]`).  The
scan over the argument vector is `scanLoop`; its per-element pieces are
the `step*` functions.  `none` models a raised exception
(`ValueError` from `int(...)`, `IndexError` from `sys.argv[1]`). -/

/-- `sys.argv[0]` ends with `uvicorn`, `fastapi` or `gunicorn`. -/
def recognizedLauncher (prog : List Char) : Bool :=
  pyEndswith ("uvicorn".data) prog || pyEndswith ("fastapi".data) prog
    || pyEndswith ("gunicorn".data) prog

/-- Loop body, part 1: `if _arg.startswith("--ssl"): http_scheme = https`. -/
def stepScheme (arg : List Char) (v : ApiConfig) : ApiConfig :=
  if pyStartswith ("--ssl".data) arg then { v with http_scheme := HTTPSchemeEnum.https }
  else v

/-- Loop body, part 2: the `--host=VALUE` / `--host VALUE` branches.
`rest` holds the arguments after the current one (so `sys.argv[_i+1]` is
its head).  Returns the updated `_has_host` flag and values. -/
def stepHost (arg : List Char) (rest : List (List Char)) (hasHost : Bool)
    (v : ApiConfig) : Bool × ApiConfig :=
  if pyStartswith ("--host=".data) arg then
    (true, { v with bind_host := pySplitEq1 arg })
  else if arg = ("--host".data) then
    match rest with
    | b :: _ => (true, { v with bind_host := b })
    | [] => (hasHost, v)
  else (hasHost, v)

/-- Loop body, part 3: the `--port=VALUE` / `--port VALUE` branches;
`int(...)` failure is a raised `ValueError`. -/
def stepPort (arg : List Char) (rest : List (List Char)) (v : ApiConfig) :
    Option ApiConfig :=
  if pyStartswith ("--port=".data) arg then
    (pyInt (pySplitEq1 arg)).map (fun p => { v with port := p })
  else if arg = ("--port".data) then
    match rest with
    | b :: _ => (pyInt b).map (fun p => { v with port := p })
    | [] => some v
  else some v

/-- The `for _i, _arg in enumerate(sys.argv)` loop of `_check_args`. -/
def scanLoop : List (List Char) → Bool → ApiConfig → Option (Bool × ApiConfig)
  | [], hasHost, v => some (hasHost, v)
  | arg :: rest, hasHost, v =>
    let v1 := stepScheme arg v
    let hv := stepHost arg rest hasHost v1
    match stepPort arg rest hv.2 with
    | none => none
    | some v3 => scanLoop rest hv.1 v3

/-- The `if not _has_host` tail of `_check_args`: default `bind_host` to
`127.0.0.1`, then to `0.0.0.0` when the launcher is `fastapi` invoked
with first argument `run`; reading `sys.argv[1]` raises `IndexError`
(modelled as `none`) when `fastapi` was started with no arguments. -/
def defaultHost (prog : List Char) (args : List (List Char)) (v : ApiConfig) :
    Option ApiConfig :=
  let v1 := { v with bind_host := ("127.0.0.1".data) }
  if pyEndswith ("fastapi".data) prog then
    match args with
    | [] => none
    | a1 :: _ =>
      if a1 = ("run".data) then some { v1 with bind_host := ("0.0.0.0".data) }
      else some v1
  else some v1

/-- `ApiConfig._check_args`.  Under a recognized launcher: scan all of
`sys.argv` for `--ssl*`, `--host`, `--port` flags; when no host flag was
seen, apply the `defaultHost` tail.  Under any other program: force the
scheme to https exactly when `security.ssl.enabled` is set. -/
def checkArgs (prog : List Char) (args : List (List Char)) (values : ApiConfig) :
    Option ApiConfig :=
  if recognizedLauncher prog then
    match scanLoop (prog :: args) false values with
    | none => none
    | some (hasHost, v) =>
      if hasHost then some v else defaultHost prog args v
  else if values.security_ssl_enabled then
    some { values with http_scheme := HTTPSchemeEnum.https }
  else some values

/-! ## The full resolution pipeline -/

/-- Field-by-field validation in declaration order, mirroring pydantic's
pass over the model: each field's declared constraints run first, then
its "after" validator, with `info.data` holding the already-validated
fields.  A field failure aborts the whole resolution. -/
def validateFields (v : ApiConfig) : Option ApiConfig := do
  let nm ← validateStr 2 128 v.name
  let sl ← validateSlug v.slug (some nm)
  let bh ← validateStr 2 128 v.bind_host
  let pt ← validatePort v.port
  let ver ← validateStr 1 16 v.version
  let pre0 ← validateStr 0 128 v.prefix_
  let pre ← checkPrefix pre0 (some ver)
  let gz ← validateGzipMinSize v.gzip_min_size
  let dc ← checkDocs v.docs (some pre)
  let ps ← checkPaths v.paths (some sl)
  some { v with name := nm, slug := sl, bind_host := bh, port := pt,
                version := ver, prefix_ := pre, gzip_min_size := gz,
                docs := dc, paths := ps }

/-- The whole resolution: the "before" model validator `_check_args`
on the raw values, then per-field validation.  The result is the frozen
configuration (`FrozenApiConfig` adds no further logic). -/
def resolveApi (prog : List Char) (args : List (List Char)) (values : ApiConfig) :
    Option ApiConfig :=
  (checkArgs prog args values).bind validateFields

/-- A benign raw values record used by the concrete theorems below. -/
def rawBase : ApiConfig where
  name := "My Cool API".data
  slug := "my-cool-api".data
  http_scheme := HTTPSchemeEnum.http
  bind_host := "localhost".data
  port := 8000
  version := "v1".data
  prefix_ := "/api/{api_version}".data
  gzip_min_size := 512
  behind_proxy := false
  behind_cf_proxy := false
  security_ssl_enabled := false
  docs := { enabled := true
            openapi_url := "/openapi.json".data
            docs_url := "/docs".data
            redoc_url := "/redoc".data
            swagger_ui_oauth2_redirect_url := "/docs/oauth2-redirect".data }
  paths := { tmp_dir := "/tmp/my-cool-api".data
             uploads_dir := "/tmp/my-cool-api/uploads".data
             data_dir := "/var/lib/my-cool-api".data }

/-- An argument vector contains a host flag exactly when the scan of
`_check_args` would set `_has_host`: an element starting with `--host=`,
or an element equal to `--host` that is not the last one. -/
def hasHostFlag : List (List Char) → Bool
  | [] => false
  | a :: rest =>
    pyStartswith ("--host=".data) a || (decide (a = ("--host".data)) && !rest.isEmpty)
      || hasHostFlag rest

/-! ## Helper lemmas: substring test -/

theorem pyIn_of_startswith {p s : List Char} (h : pyStartswith p s = true) :
    pyIn p s = true := by
  cases s with
  | nil =>
    cases p with
    | nil => rfl
    | cons c cs => simp [pyStartswith] at h
  | cons c rest => simp [pyIn, h]

theorem pyStartswith_append (p t : List Char) : pyStartswith p (p ++ t) = true := by
  induction p with
  | nil => rfl
  | cons c cs ih => simp [pyStartswith, ih]

theorem pyIn_cons_of {p t : List Char} {c : Char} (h : pyIn p t = true) :
    pyIn p (c :: t) = true := by
  simp [pyIn, h]

theorem pyIn_append_middle (a p t : List Char) : pyIn p (a ++ p ++ t) = true := by
  induction a with
  | nil => exact pyIn_of_startswith (pyStartswith_append p t)
  | cons c cs ih => simpa using pyIn_cons_of ih

theorem pyIn_head_mem {c : Char} {p s : List Char} (h : pyIn (c :: p) s = true) :
    c ∈ s := by
  induction s with
  | nil => simp [pyIn, List.isEmpty] at h
  | cons d rest ih =>
    simp only [pyIn, Bool.or_eq_true] at h
    rcases h with h | h
    · simp only [pyStartswith, Bool.and_eq_true, decide_eq_true_eq] at h
      exact h.1 ▸ List.mem_cons_self d rest
    · exact List.mem_cons_of_mem d (ih h)

theorem braceFree_no_open {s : List Char} (h : braceFree s = true) :
    ('{' : Char) ∉ s := by
  intro hm
  simp only [braceFree, List.all_eq_true] at h
  simpa using h _ hm

theorem pyIn_open_token_false {p s : List Char} (h : braceFree s = true) :
    pyIn ('{' :: p) s = false := by
  cases hq : pyIn ('{' :: p) s with
  | false => rfl
  | true => exact absurd (pyIn_head_mem hq) (braceFree_no_open h)

/-! ## Helper lemmas: `str.format` -/

theorem fmtCore_pass {a : List Char} (key val : List Char) (t : List Char)
    (h : braceFree a = true) :
    fmtCore key val none (a ++ t) = Option.map (fun r => a ++ r) (fmtCore key val none t) := by
  induction a with
  | nil => simp
  | cons c cs ih =>
    simp only [braceFree, List.all_cons, Bool.and_eq_true, Bool.not_eq_eq_eq_not,
      Bool.not_true, Bool.or_eq_false_iff, decide_eq_false_iff_not] at h
    have h1 : c ≠ '{' := h.1.1
    have h2 : c ≠ '}' := h.1.2
    have ih' := ih (by simpa [braceFree] using h.2)
    rw [List.cons_append, fmtCore.eq_def]
    simp only [h1, h2, if_false, ih', Option.map_map]
    cases fmtCore key val none t <;> simp

theorem fmtCore_done {b : List Char} (key val : List Char) (h : braceFree b = true) :
    fmtCore key val none b = some b := by
  have h2 := fmtCore_pass (a := b) key val [] h
  have h0 : fmtCore key val none [] = some [] := rfl
  rw [h0] at h2
  simpa using h2

theorem fmtCore_open {c : Char} (key val : List Char) (rest : List Char) (h : c ≠ '{') :
    fmtCore key val none ('{' :: c :: rest) = fmtCore key val (some []) (c :: rest) := by
  rw [fmtCore.eq_def]
  simp [h]

theorem fmtCore_field {n : List Char} (key val : List Char) (acc t : List Char)
    (h : n.all (fun c => c ≠ '}') = true) :
    fmtCore key val (some acc) (n ++ '}' :: t) =
      (if acc.reverse ++ n = key then Option.map (fun r => val ++ r) (fmtCore key val none t)
       else none) := by
  induction n generalizing acc with
  | nil =>
    rw [List.nil_append, fmtCore.eq_def]
    simp
  | cons c cs ih =>
    simp only [List.all_cons, Bool.and_eq_true, decide_eq_true_eq] at h
    rw [List.cons_append, fmtCore.eq_def]
    simp only [if_neg h.1]
    rw [ih (c :: acc) h.2]
    simp [List.append_assoc]

theorem pyFormat_single_token (key a b v : List Char) (c0 : Char) (cs0 : List Char)
    (hkey : key = c0 :: cs0) (hc0 : c0 ≠ '{')
    (hkeyok : key.all (fun c => c ≠ '}') = true)
    (ha : braceFree a = true) (hb : braceFree b = true) :
    pyFormat key v (a ++ ('{' :: (key ++ ['}'])) ++ b) = some (a ++ v ++ b) := by
  have hshape : a ++ ('{' :: (key ++ ['}'])) ++ b = a ++ ('{' :: (key ++ '}' :: b)) := by
    simp
  rw [pyFormat, hshape, fmtCore_pass key v _ ha]
  have hopen : fmtCore key v none ('{' :: (key ++ '}' :: b)) =
      fmtCore key v (some []) (key ++ '}' :: b) := by
    rw [hkey, List.cons_append]
    exact fmtCore_open (c0 :: cs0) v _ hc0
  rw [hopen, fmtCore_field key v [] b hkeyok]
  simp [fmtCore_done key v hb]

/-! ## Helper lemmas: the launch-argument scan -/

theorem stepScheme_bind_host (a : List Char) (v : ApiConfig) :
    (stepScheme a v).bind_host = v.bind_host := by
  unfold stepScheme
  split <;> rfl

theorem stepScheme_https_mono (a : List Char) (v : ApiConfig)
    (h : v.http_scheme = HTTPSchemeEnum.https) :
    (stepScheme a v).http_scheme = HTTPSchemeEnum.https := by
  unfold stepScheme
  split <;> simp [h]

theorem stepScheme_ssl (a : List Char) (v : ApiConfig)
    (h : pyStartswith ("--ssl".data) a = true) :
    (stepScheme a v).http_scheme = HTTPSchemeEnum.https := by
  unfold stepScheme
  rw [h]
  rfl

theorem stepHost_noflag (a : List Char) (rest : List (List Char)) (hh : Bool)
    (v : ApiConfig)
    (h1 : pyStartswith ("--host=".data) a = false)
    (h2 : (decide (a = ("--host".data)) && !rest.isEmpty) = false) :
    stepHost a rest hh v = (hh, v) := by
  have hc : pyStartswith ("--host=".data) ("--host".data) = false := by decide
  by_cases ha : a = ("--host".data)
  · have hrest : rest = [] := by
      cases rest with
      | nil => rfl
      | cons x xs => simp [ha] at h2
    simp [stepHost, ha, hrest, hc]
  · simp [stepHost, h1, ha]

theorem stepHost_http_scheme (a : List Char) (rest : List (List Char)) (hh : Bool)
    (v : ApiConfig) : (stepHost a rest hh v).2.http_scheme = v.http_scheme := by
  have hc : pyStartswith ("--host=".data) ("--host".data) = false := by decide
  by_cases h1 : pyStartswith ("--host=".data) a = true
  · simp [stepHost, h1]
  · by_cases h2 : a = ("--host".data)
    · cases rest <;> simp [stepHost, h2, hc]
    · simp [stepHost, h1, h2]

theorem stepPort_some (a : List Char) (rest : List (List Char)) (v w : ApiConfig)
    (h : stepPort a rest v = some w) :
    w.bind_host = v.bind_host ∧ w.http_scheme = v.http_scheme := by
  by_cases h1 : pyStartswith ("--port=".data) a = true
  · simp only [stepPort, h1, if_true] at h
    cases hp : pyInt (pySplitEq1 a) with
    | none => rw [hp] at h; simp at h
    | some p =>
      rw [hp] at h
      simp only [Option.map_some'] at h
      cases h
      exact ⟨rfl, rfl⟩
  · have hc : pyStartswith ("--port=".data) ("--port".data) = false := by decide
    by_cases h2 : a = ("--port".data)
    · cases rest with
      | nil =>
        simp only [stepPort, h2, hc, Bool.false_eq_true, if_false, if_true] at h
        cases h
        exact ⟨rfl, rfl⟩
      | cons b bs =>
        simp only [stepPort, h2, hc, Bool.false_eq_true, if_false, if_true] at h
        cases hp : pyInt b with
        | none => rw [hp] at h; simp at h
        | some p =>
          rw [hp] at h
          simp only [Option.map_some'] at h
          cases h
          exact ⟨rfl, rfl⟩
    · simp only [stepPort, h1, h2, if_false, Bool.false_eq_true] at h
      cases h
      exact ⟨rfl, rfl⟩

theorem scanLoop_no_host (l : List (List Char)) :
    ∀ (hh : Bool) (v : ApiConfig) (r : Bool × ApiConfig),
      hasHostFlag l = false → scanLoop l hh v = some r →
      r.1 = hh ∧ r.2.bind_host = v.bind_host := by
  induction l with
  | nil =>
    intro hh v r _ hs
    cases hs
    exact ⟨rfl, rfl⟩
  | cons a rest ih =>
    intro hh v r hflag hs
    simp only [hasHostFlag, Bool.or_eq_false_iff] at hflag
    obtain ⟨⟨hf1, hf2⟩, hf3⟩ := hflag
    rw [scanLoop] at hs
    rw [stepHost_noflag a rest hh (stepScheme a v) hf1 hf2] at hs
    cases hp : stepPort a rest (stepScheme a v) with
    | none => rw [hp] at hs; simp at hs
    | some v3 =>
      rw [hp] at hs
      simp only at hs
      have hfields := stepPort_some a rest (stepScheme a v) v3 hp
      have := ih hh v3 r hf3 hs
      exact ⟨this.1, by rw [this.2, hfields.1, stepScheme_bind_host]⟩

theorem scanLoop_https_mono (l : List (List Char)) :
    ∀ (hh : Bool) (v : ApiConfig) (r : Bool × ApiConfig),
      v.http_scheme = HTTPSchemeEnum.https → scanLoop l hh v = some r →
      r.2.http_scheme = HTTPSchemeEnum.https := by
  induction l with
  | nil =>
    intro hh v r hv hs
    cases hs
    exact hv
  | cons a rest ih =>
    intro hh v r hv hs
    rw [scanLoop] at hs
    cases hp : stepPort a rest (stepHost a rest hh (stepScheme a v)).2 with
    | none => rw [hp] at hs; simp at hs
    | some v3 =>
      rw [hp] at hs
      simp only at hs
      have h1 : v3.http_scheme = HTTPSchemeEnum.https := by
        have h2 := (stepPort_some _ _ _ _ hp).2
        rw [h2, stepHost_http_scheme, stepScheme_https_mono a v hv]
      exact ih _ v3 r h1 hs

theorem scanLoop_ssl (l : List (List Char)) :
    ∀ (hh : Bool) (v : ApiConfig) (r : Bool × ApiConfig) (x : List Char),
      x ∈ l → pyStartswith ("--ssl".data) x = true → scanLoop l hh v = some r →
      r.2.http_scheme = HTTPSchemeEnum.https := by
  induction l with
  | nil =>
    intro hh v r x hx
    simp at hx
  | cons a rest ih =>
    intro hh v r x hx hssl hs
    rw [scanLoop] at hs
    cases hp : stepPort a rest (stepHost a rest hh (stepScheme a v)).2 with
    | none => rw [hp] at hs; simp at hs
    | some v3 =>
      rw [hp] at hs
      simp only at hs
      rcases List.mem_cons.mp hx with hxa | hxr
      · have h1 : v3.http_scheme = HTTPSchemeEnum.https := by
          have h2 := (stepPort_some _ _ _ _ hp).2
          rw [h2, stepHost_http_scheme, stepScheme_ssl a v (hxa ▸ hssl)]
        exact scanLoop_https_mono rest _ v3 r h1 hs
      · exact ih _ v3 r x hxr hssl hs

theorem defaultHost_http_scheme (prog : List Char) (args : List (List Char))
    (v w : ApiConfig) (h : defaultHost prog args v = some w) :
    w.http_scheme = v.http_scheme := by
  unfold defaultHost at h
  by_cases hf : pyEndswith ("fastapi".data) prog = true
  · simp only [hf, if_true] at h
    cases args with
    | nil => simp at h
    | cons a1 rest =>
      by_cases hr : a1 = ("run".data)
      · simp only [hr, if_true] at h
        cases h
        rfl
      · simp only [hr, if_false] at h
        cases h
        rfl
  · simp only [Bool.not_eq_true] at hf
    simp only [hf, Bool.false_eq_true, if_false] at h
    cases h
    rfl

theorem defaultHost_bind_host (prog : List Char) (args : List (List Char))
    (v w : ApiConfig) (h : defaultHost prog args v = some w) :
    w.bind_host =
      (if pyEndswith ("fastapi".data) prog = true ∧ args.head? = some ("run".data)
       then ("0.0.0.0".data) else ("127.0.0.1".data)) := by
  unfold defaultHost at h
  by_cases hf : pyEndswith ("fastapi".data) prog = true
  · simp only [hf, if_true] at h
    cases args with
    | nil => simp at h
    | cons a1 rest =>
      by_cases hr : a1 = ("run".data)
      · simp only [hr, if_true] at h
        cases h
        simp [hf, hr]
      · simp only [hr, if_false] at h
        cases h
        simp [hf, hr]
  · simp only [Bool.not_eq_true] at hf
    simp only [hf, Bool.false_eq_true, if_false] at h
    cases h
    simp [hf]

theorem checkArgs_unrec_eq (prog : List Char) (args : List (List Char))
    (v : ApiConfig) (h : recognizedLauncher prog = false) :
    checkArgs prog args v =
      some { v with http_scheme :=
        if v.security_ssl_enabled then HTTPSchemeEnum.https else v.http_scheme } := by
  unfold checkArgs
  rw [h]
  cases v with
  | mk n s hs b p ver pre g bp bcp ssl d ps => cases ssl <;> simp

theorem checkArgs_ssl_flag_https (prog : List Char) (args : List (List Char))
    (v w : ApiConfig) (x : List Char) (hrec : recognizedLauncher prog = true)
    (hx : x ∈ prog :: args) (hssl : pyStartswith ("--ssl".data) x = true)
    (h : checkArgs prog args v = some w) : w.http_scheme = HTTPSchemeEnum.https := by
  unfold checkArgs at h
  rw [hrec] at h
  simp only [if_true] at h
  cases hscan : scanLoop (prog :: args) false v with
  | none => rw [hscan] at h; simp at h
  | some pr =>
    rw [hscan] at h
    obtain ⟨hh, v2⟩ := pr
    have hv2 : v2.http_scheme = HTTPSchemeEnum.https :=
      scanLoop_ssl (prog :: args) false v (hh, v2) x hx hssl hscan
    simp only at h
    cases hh with
    | true =>
      simp only [if_true] at h
      cases h
      exact hv2
    | false =>
      simp only [Bool.false_eq_true, if_false] at h
      rw [defaultHost_http_scheme prog args v2 w h]
      exact hv2

theorem checkArgs_no_host_default (prog : List Char) (args : List (List Char))
    (v w : ApiConfig) (hrec : recognizedLauncher prog = true)
    (hflag : hasHostFlag (prog :: args) = false)
    (h : checkArgs prog args v = some w) :
    w.bind_host =
      (if pyEndswith ("fastapi".data) prog = true ∧ args.head? = some ("run".data)
       then ("0.0.0.0".data) else ("127.0.0.1".data)) := by
  unfold checkArgs at h
  rw [hrec] at h
  simp only [if_true] at h
  cases hscan : scanLoop (prog :: args) false v with
  | none => rw [hscan] at h; simp at h
  | some pr =>
    rw [hscan] at h
    obtain ⟨hh, v2⟩ := pr
    have hnh := scanLoop_no_host (prog :: args) false v (hh, v2) hflag hscan
    simp only at h hnh
    rw [hnh.1] at h
    simp only [Bool.false_eq_true, if_false] at h
    exact defaultHost_bind_host prog args v2 w h

/-! ## Claim theorems -/

/-- Claim C2, counterexample: the claimed acceptance interval [80, 65535)
is wrong at 65535 — the code (`ge=80, lt=65536`) accepts port 65535,
while the claim says it fails validation. -/
theorem c2_counterexample :
    ¬ ((validatePort 65535).isSome = true ↔ (80 ≤ (65535 : Int) ∧ (65535 : Int) < 65535)) := by
  decide

/-- Claim C2 (amended): port validation accepts a raw integer iff it lies
in the closed-open interval [80, 65536); in particular 79 fails, 8080
succeeds, 65535 succeeds, and 65536 fails. -/
theorem c2_port_interval :
    (∀ p : Int, (validatePort p).isSome = true ↔ (80 ≤ p ∧ p < 65536)) ∧
    (validatePort 79).isSome = false ∧ (validatePort 8080).isSome = true ∧
    (validatePort 65535).isSome = true ∧ (validatePort 65536).isSome = false := by
  refine ⟨fun p => ?_, by decide, by decide, by decide, by decide⟩
  unfold validatePort
  split <;> simp_all

/-- Claim C3: with an uploads-dir template containing both the slug token
and the tmp-dir token, the slug branch is selected, but `str.format`
raises `KeyError` on the leftover tmp-dir field, so resolution fails
(`none`) instead of succeeding with the slug-based expansion. -/
theorem c3_both_tokens_raises :
    checkPaths { tmp_dir := ("/var/tmp".data),
                 uploads_dir := ("{api_slug}/{tmp_dir}/uploads".data),
                 data_dir := ("/srv/data".data) } (some ("acme".data)) = none := by
  decide

/-- Claim C4: with an empty raw slug and an already-validated name, the
declared `min_length=2` constraint (which pydantic runs before the
"after" validator `_check_slug`) rejects the field, so resolution fails;
the derivation hook itself, had it run, would have produced the claimed
`my-cool-api`. -/
theorem c4_empty_slug_rejected :
    validateSlug ("".data) (some ("My Cool API".data)) = none ∧
    checkSlug ("".data) (some ("My Cool API".data)) = ("my-cool-api".data) := by
  decide

/-- Claim C5: with argument vector `["fastapi"]` — program name ending in
`fastapi`, no host flag — the override step reads `sys.argv[1]`
unconditionally and raises `IndexError` (modelled as `none`) instead of
terminating without raising. -/
theorem c5_bare_fastapi_crashes :
    hasHostFlag [("fastapi".data)] = false ∧
    checkArgs ("fastapi".data) [] rawBase = none := by
  decide

/-- Claim C6, counterexample: under an unrecognized program with security
TLS disabled but a raw mapping already carrying the https scheme, the
resolved scheme is https — refuting "https if and only if TLS enabled". -/
theorem c6_counterexample :
    recognizedLauncher ("python3".data) = false ∧
    ({ rawBase with http_scheme := HTTPSchemeEnum.https } : ApiConfig).security_ssl_enabled
      = false ∧
    (checkArgs ("python3".data) [] { rawBase with http_scheme := HTTPSchemeEnum.https }).map
      ApiConfig.http_scheme = some HTTPSchemeEnum.https := by
  decide

/-- Claim C6 (amended): under an unrecognized program, `bind_host` and
`port` are never overridden, and the scheme is forced to https exactly
when the security sub-config reports TLS enabled — otherwise the scheme
keeps its raw value (which may itself be https). -/
theorem c6_unrecognized_behavior :
    ∀ (prog : List Char) (args : List (List Char)) (v w : ApiConfig),
      recognizedLauncher prog = false → checkArgs prog args v = some w →
      w.bind_host = v.bind_host ∧ w.port = v.port ∧
      w.http_scheme =
        (if v.security_ssl_enabled then HTTPSchemeEnum.https else v.http_scheme) := by
  intro prog args v w hrec h
  rw [checkArgs_unrec_eq prog args v hrec] at h
  cases h
  exact ⟨rfl, rfl, rfl⟩

/-- Witness for C6 at program `python3`, no arguments, `rawBase`. -/
theorem c6_unrecognized_behavior_witness :
    recognizedLauncher ("python3".data) = false ∧
    checkArgs ("python3".data) [] rawBase = some rawBase ∧
    (rawBase.bind_host = rawBase.bind_host ∧ rawBase.port = rawBase.port ∧
      rawBase.http_scheme =
        (if rawBase.security_ssl_enabled then HTTPSchemeEnum.https
         else rawBase.http_scheme)) := by
  refine ⟨by decide, by decide, ?_⟩
  exact c6_unrecognized_behavior ("python3".data) [] rawBase rawBase (by decide) (by decide)

/-- Claim C7: filesystem-path expansion with a resolved slug processes
tmp-dir first, then uploads-dir (whose tmp-dir token is expanded with the
already-resolved tmp-dir value), then data-dir: with slug `acme`,
`/var/tmp/\x7bapi_slug\x7d` resolves to `/var/tmp/acme` and
`\x7btmp_dir\x7d/uploads` to `/var/tmp/acme/uploads`; directories with no
placeholder are left unchanged. -/
theorem c7_paths_resolution :
    (checkPaths { tmp_dir := ("/var/tmp/{api_slug}".data),
                  uploads_dir := ("{tmp_dir}/uploads".data),
                  data_dir := ("/srv/data".data) } (some ("acme".data)) =
      some { tmp_dir := ("/var/tmp/acme".data),
             uploads_dir := ("/var/tmp/acme/uploads".data),
             data_dir := ("/srv/data".data) }) ∧
    (∀ (p : PathsConfig) (slug : List Char),
       pyIn ("{api_slug}".data) p.tmp_dir = false →
       pyIn ("{api_slug}".data) p.uploads_dir = false →
       pyIn ("{tmp_dir}".data) p.uploads_dir = false →
       pyIn ("{api_slug}".data) p.data_dir = false →
       checkPaths p (some slug) = some p) := by
  constructor
  · decide
  · intro p slug h1 h2 h3 h4
    unfold checkPaths
    simp only [h1, h2, h3, h4, Bool.false_eq_true, if_false]
    rfl

/-- Witness for C7 on a record with no placeholders. -/
theorem c7_paths_resolution_witness :
    (pyIn ("{api_slug}".data) ("/t".data) = false ∧
     pyIn ("{api_slug}".data) ("/u".data) = false ∧
     pyIn ("{tmp_dir}".data) ("/u".data) = false ∧
     pyIn ("{api_slug}".data) ("/d".data) = false) ∧
    checkPaths { tmp_dir := ("/t".data), uploads_dir := ("/u".data),
                 data_dir := ("/d".data) } (some ("acme".data)) =
      some { tmp_dir := ("/t".data), uploads_dir := ("/u".data),
             data_dir := ("/d".data) } := by
  refine ⟨⟨by decide, by decide, by decide, by decide⟩, ?_⟩
  exact c7_paths_resolution.2
    { tmp_dir := ("/t".data), uploads_dir := ("/u".data), data_dir := ("/d".data) }
    ("acme".data) (by decide) (by decide) (by decide) (by decide)

/-- Claim C8, counterexample: a validated version value may itself contain
the version token (`\x7bapi_version\x7d` is 13 characters, within the
1–16 length bound); substituting it into `/api/\x7bapi_version\x7d`
leaves a version token in the resolved prefix, refuting "no version
token remains after resolution". -/
theorem c8_counterexample :
    validateStr 1 16 ("{api_version}".data) = some ("{api_version}".data) ∧
    checkPrefix ("/api/{api_version}".data) (some ("{api_version}".data)) =
      some ("/api/{api_version}".data) ∧
    pyIn ("{api_version}".data) ("/api/{api_version}".data) = true := by
  decide

/-- Claim C8 (amended): when the non-empty prefix consists of one version
token surrounded by brace-free text and the available version value is
itself brace-free, the version is substituted in a single pass and no
version token remains; when no version value is available the prefix is
left unexpanded. -/
theorem c8_version_substitution :
    (∀ a b v : List Char, braceFree a = true → braceFree b = true → braceFree v = true →
       checkPrefix (a ++ ("{api_version}".data) ++ b) (some v) = some (a ++ v ++ b) ∧
       pyIn ("{api_version}".data) (a ++ v ++ b) = false) ∧
    (∀ p : List Char, checkPrefix p none = some p) := by
  constructor
  · intro a b v ha hb hv
    have hin : pyIn ("{api_version}".data) (a ++ ("{api_version}".data) ++ b) = true :=
      pyIn_append_middle a _ b
    have hne : (a ++ ("{api_version}".data) ++ b).isEmpty = false := by
      cases hcase : a ++ ("{api_version}".data) ++ b with
      | nil => simp at hcase
      | cons _ _ => rfl
    constructor
    · unfold checkPrefix
      simp only [hne, hin, Bool.false_eq_true, if_false, if_true]
      exact pyFormat_single_token ("api_version".data) a b v 'a' ("pi_version".data)
        rfl (by decide) (by decide) ha hb
    · have hbf : braceFree (a ++ v ++ b) = true := by
        simp only [braceFree, List.all_append, Bool.and_eq_true] at ha hb hv ⊢
        exact ⟨⟨ha, hv⟩, hb⟩
      exact pyIn_open_token_false (p := ("api_version\x7d".data)) hbf
  · intro p
    unfold checkPrefix
    by_cases hp : p.isEmpty = true
    · simp [hp]
    · simp only [Bool.not_eq_true] at hp
      simp [hp]

/-- Witness for C8 at prefix `/api/\x7bapi_version\x7d`, version `v2`. -/
theorem c8_version_substitution_witness :
    (braceFree ("/api/".data) = true ∧ braceFree ([] : List Char) = true ∧
     braceFree ("v2".data) = true) ∧
    checkPrefix ("/api/{api_version}".data) (some ("v2".data)) = some ("/api/v2".data) ∧
    pyIn ("{api_version}".data) ("/api/v2".data) = false := by
  refine ⟨⟨by decide, by decide, by decide⟩, ?_, ?_⟩
  · have h := (c8_version_substitution.1 ("/api/".data) [] ("v2".data)
      (by decide) (by decide) (by decide)).1
    have e1 : ("/api/".data) ++ ("{api_version}".data) ++ [] = ("/api/{api_version}".data) := by
      decide
    have e2 : ("/api/".data) ++ ("v2".data) ++ [] = ("/api/v2".data) := by decide
    rw [e1, e2] at h
    exact h
  · have h := (c8_version_substitution.1 ("/api/".data) [] ("v2".data)
      (by decide) (by decide) (by decide)).2
    have e2 : ("/api/".data) ++ ("v2".data) ++ [] = ("/api/v2".data) := by decide
    rw [e2] at h
    exact h

/-- Claim C1, counterexample: under the recognized launcher `uvicorn` with
security TLS enabled and no `--ssl` launch flag, the fully resolved
scheme is http, not https — the security trigger is only consulted in
the non-launcher branch. -/
theorem c1_counterexample :
    ({ rawBase with security_ssl_enabled := true } : ApiConfig).security_ssl_enabled = true ∧
    (resolveApi ("uvicorn".data) [] { rawBase with security_ssl_enabled := true }).map
      ApiConfig.http_scheme = some HTTPSchemeEnum.http := by
  decide

/-- Claim C1 (amended): the two https triggers are branch-specific — under
a program that is not a recognized launcher, security TLS forces https;
under a recognized launcher, a launch argument starting with `--ssl`
forces https.  Security TLS alone does not force https under a
recognized launcher. -/
theorem c1_https_triggers :
    (∀ (prog : List Char) (args : List (List Char)) (v w : ApiConfig),
       recognizedLauncher prog = false → v.security_ssl_enabled = true →
       checkArgs prog args v = some w → w.http_scheme = HTTPSchemeEnum.https) ∧
    (∀ (prog : List Char) (args : List (List Char)) (v w : ApiConfig) (x : List Char),
       recognizedLauncher prog = true → x ∈ prog :: args →
       pyStartswith ("--ssl".data) x = true → checkArgs prog args v = some w →
       w.http_scheme = HTTPSchemeEnum.https) := by
  constructor
  · intro prog args v w hrec hssl h
    rw [checkArgs_unrec_eq prog args v hrec] at h
    cases h
    simp [hssl]
  · intro prog args v w x hrec hx hssl h
    exact checkArgs_ssl_flag_https prog args v w x hrec hx hssl h

/-- Witness for C1: the non-launcher trigger at `python3` with TLS
enabled, and the `--ssl` trigger at `uvicorn --ssl-keyfile`. -/
theorem c1_https_triggers_witness :
    (recognizedLauncher ("python3".data) = false ∧
     ({ rawBase with security_ssl_enabled := true } : ApiConfig).security_ssl_enabled = true ∧
     ({ rawBase with security_ssl_enabled := true,
                     http_scheme := HTTPSchemeEnum.https } : ApiConfig).http_scheme =
       HTTPSchemeEnum.https) ∧
    (recognizedLauncher ("uvicorn".data) = true ∧
     ({ rawBase with http_scheme := HTTPSchemeEnum.https,
                     bind_host := ("127.0.0.1".data) } : ApiConfig).http_scheme =
       HTTPSchemeEnum.https) := by
  refine ⟨⟨by decide, by decide, ?_⟩, ⟨by decide, ?_⟩⟩
  · exact c1_https_triggers.1 ("python3".data) []
      { rawBase with security_ssl_enabled := true }
      { rawBase with security_ssl_enabled := true, http_scheme := HTTPSchemeEnum.https }
      (by decide) (by decide) (by decide)
  · exact c1_https_triggers.2 ("uvicorn".data) [("--ssl-keyfile".data)] rawBase
      { rawBase with http_scheme := HTTPSchemeEnum.https, bind_host := ("127.0.0.1".data) }
      ("--ssl-keyfile".data) (by decide) (by decide) (by decide) (by decide)

/-- Claim C9: under a recognized launcher with no host flag anywhere in
the argument vector, a successful override defaults `bind_host` to the
loopback address `127.0.0.1`, except in the `fastapi run` sub-command
mode where it defaults to the wildcard address `0.0.0.0`. -/
theorem c9_default_bind_host :
    ∀ (prog : List Char) (args : List (List Char)) (v w : ApiConfig),
      recognizedLauncher prog = true → hasHostFlag (prog :: args) = false →
      checkArgs prog args v = some w →
      w.bind_host =
        (if pyEndswith ("fastapi".data) prog = true ∧ args.head? = some ("run".data)
         then ("0.0.0.0".data) else ("127.0.0.1".data)) := by
  intro prog args v w h1 h2 h3
  exact checkArgs_no_host_default prog args v w h1 h2 h3

/-- Witness for C9: `uvicorn` with no arguments gives loopback; `fastapi
run` gives the wildcard address. -/
theorem c9_default_bind_host_witness :
    (recognizedLauncher ("uvicorn".data) = true ∧
     hasHostFlag [("uvicorn".data)] = false ∧
     ({ rawBase with bind_host := ("127.0.0.1".data) } : ApiConfig).bind_host =
       (if pyEndswith ("fastapi".data) ("uvicorn".data) = true ∧
           ([] : List (List Char)).head? = some ("run".data)
        then ("0.0.0.0".data) else ("127.0.0.1".data))) ∧
    (recognizedLauncher ("fastapi".data) = true ∧
     hasHostFlag [("fastapi".data), ("run".data)] = false ∧
     ({ rawBase with bind_host := ("0.0.0.0".data) } : ApiConfig).bind_host =
       (if pyEndswith ("fastapi".data) ("fastapi".data) = true ∧
           [("run".data)].head? = some ("run".data)
        then ("0.0.0.0".data) else ("127.0.0.1".data))) := by
  refine ⟨⟨by decide, by decide, ?_⟩, ⟨by decide, by decide, ?_⟩⟩
  · exact c9_default_bind_host ("uvicorn".data) [] rawBase
      { rawBase with bind_host := ("127.0.0.1".data) } (by decide) (by decide) (by decide)
  · exact c9_default_bind_host ("fastapi".data) [("run".data)] rawBase
      { rawBase with bind_host := ("0.0.0.0".data) } (by decide) (by decide) (by decide)

/-- Claim C10: the resolution pipeline is deterministic — it is a pure
function of the raw values mapping and the launch argument vector, so
identical inputs yield identical resolved configurations. -/
theorem c10_resolution_deterministic :
    ∀ (prog : List Char) (args : List (List Char)) (v : ApiConfig)
      (prog2 : List Char) (args2 : List (List Char)) (v2 : ApiConfig),
      prog = prog2 → args = args2 → v = v2 →
      resolveApi prog args v = resolveApi prog2 args2 v2 := by
  intro prog args v prog2 args2 v2 h1 h2 h3
  rw [h1, h2, h3]

/-- Witness for C10 at `uvicorn`, no arguments, `rawBase`. -/
theorem c10_resolution_deterministic_witness :
    ("uvicorn".data = "uvicorn".data) ∧ (([] : List (List Char)) = []) ∧
    (rawBase = rawBase) ∧
    resolveApi ("uvicorn".data) [] rawBase = resolveApi ("uvicorn".data) [] rawBase :=
  ⟨rfl, rfl, rfl,
    c10_resolution_deterministic ("uvicorn".data) [] rawBase ("uvicorn".data) [] rawBase
      rfl rfl rfl⟩
